import Mathlib

/-!
Shallow embedding of the cart state engine of
`src/services/cart/cart.service.js` (StretchShop), and proofs about it.

JavaScript numbers that carry quantities (`amount`, `stockAmount`) are
modelled as rationals `ℚ` (the spec permits fractional quantities);
timestamps (`Date`) as naturals; fallible promise chains as `Except`;
`undefined` returns as `Option`.
-/

set_option autoImplicit false

namespace Cart

universe u
variable {α : Type u}

/-- One `{codename, value}` entry of a cart item's `requirements` sequence. -/
structure Requirement where
  codename : String
  value : String
deriving DecidableEq, Repr

/-- A cart line item, projected onto the fields the cart service reads or
writes: `_id` (the product reference compared against `itemId`), `amount`,
and the `requirements` sequence. -/
structure CartItem where
  _id : String
  amount : ℚ
  requirements : List Requirement
deriving DecidableEq, Repr

/-- The cart record, projected onto the fields the mutation handlers touch.
`items` is `Option` because the JS object may lack the `items` property
(`cart.items && cart.items.length>0` guards for that); `dateUpdated` is a
timestamp. -/
structure CartState where
  _id : String
  user : String
  ip : String
  hash : String
  dateUpdated : ℕ
  items : Option (List CartItem)
deriving DecidableEq, Repr

/-- The product record as consumed by the `add` action's availability check:
`type`, `subtype` and `stockAmount` (where `-1` is the "unlimited" sentinel). -/
structure Product where
  type : String
  subtype : String
  stockAmount : ℚ
deriving DecidableEq, Repr

/-- Error message thrown by `add` when stock does not cover the request
(`new MoleculerClientError("Requested amount is not available")`). -/
def insufficientStockMsg : String := "Requested amount is not available"

/-- The availability check of the `add` action (cart.service.js lines
184–196): if the requested `amount` exceeds `stockAmount`, then for a
subscription-type or digital-subtype product the amount is first clamped to 1
and the call is rejected anyway when `stockAmount > -1`; any other (physical)
product is rejected outright. On success it returns the (possibly clamped)
amount that flows on to `addToCart`. -/
def addCheckStock (p : Product) (amount : ℚ) : Except String ℚ :=
  if amount > p.stockAmount then
    if p.type = "subscription" ∨ p.subtype = "digital" then
      -- ctx.params.amount = 1 happens before the inner stock test;
      -- on rejection the clamped amount is discarded with the promise.
      if p.stockAmount > -1 then
        .error insufficientStockMsg
      else
        .ok 1
    else
      .error insufficientStockMsg
  else
    .ok amount

/-- The item-finding loop shared by `delete` and `updateCartItemAmount`
(`for (let i=0; i<cart.items.length; i++) if (cart.items[i]._id == itemId) ...`):
index of the first line whose `_id` equals `itemId`, `none` when the loop
leaves `productInCart` at `-1`. -/
def findItemIndex : List CartItem → String → Option ℕ
  | [], _ => none
  | it :: rest, itemId =>
    if it._id = itemId then some 0
    else (findItemIndex rest itemId).map (· + 1)

/-- In-place update of the element at index `i`
(`cart.items[productInCart].field = ...`); out-of-range indices leave the
list unchanged. -/
def modifyAt : List α → ℕ → (α → α) → List α
  | [], _, _ => []
  | x :: xs, 0, f => f x :: xs
  | x :: xs, n + 1, f => x :: modifyAt xs n f

/-- The `amount` read `cart.items[i].amount` (0 as the out-of-range default;
every use below is guarded by a valid index). -/
def amountAt (items : List CartItem) (i : ℕ) : ℚ :=
  match items.get? i with
  | some it => it.amount
  | none => 0

/-- The `requirements` read `cart.items[i].requirements`. -/
def requirementsAt (items : List CartItem) (i : ℕ) : List Requirement :=
  match items.get? i with
  | some it => it.requirements
  | none => []

/-- Items-level core of the `delete` action (cart.service.js lines 233–259):
with an `itemId`, locate the line; when a (truthy) positive `amount` is given
subtract it and splice the line out if the result drops to `≤ 0`, otherwise
splice the whole line; an unmatched `itemId` leaves the items untouched. -/
def deleteItems (items : List CartItem) (itemId : String) (amount : Option ℚ) :
    List CartItem :=
  match findItemIndex items itemId with
  | some i =>
    match amount with
    | some a =>
      if 0 < a then
        let items1 := modifyAt items i (fun it => { it with amount := it.amount - a })
        if amountAt items1 i ≤ 0 then items1.eraseIdx i else items1
      else items.eraseIdx i
    | none => items.eraseIdx i
  | none => items

/-- The `delete` action handler (cart.service.js lines 224–269) on the resolved
cart. `none` models the handler returning `undefined` without any persistence
write (empty or absent `items`); `some c` models the cart written through
`adapter.updateById(..., prepareForUpdate(cart))` and returned. A supplied
`itemId` is validated to length ≥ 3, hence truthy. With no `itemId` all items
are cleared. -/
def deleteHandler (cart : CartState) (itemId : Option String) (amount : Option ℚ)
    (now : ℕ) : Option CartState :=
  match cart.items with
  | some its =>
    if 0 < its.length then
      let newItems :=
        match itemId with
        | some iid => deleteItems its iid amount
        | none => []
      some { cart with items := some newItems, dateUpdated := now }
    else none
  | none => none

/-- Items-level core of `updateCartItemAmount` (cart.service.js lines
299–323): locate the line; for a positive `amount`, replace the line's amount,
splice it out if the written amount is `≤ 0` (dead under the positivity guard),
then pin the amount to 1 when the line carries any `requirements`. -/
def updateItemsAmount (items : List CartItem) (itemId : Option String)
    (amount : ℚ) : List CartItem :=
  match itemId with
  | some iid =>
    match findItemIndex items iid with
    | some i =>
      if 0 < amount then
        let items1 := modifyAt items i (fun it => { it with amount := amount })
        let items2 := if amountAt items1 i ≤ 0 then items1.eraseIdx i else items1
        if 0 < (requirementsAt items2 i).length then
          modifyAt items2 i (fun it => { it with amount := 1 })
        else items2
      else items
    | none => items
  | none => items

/-- The `updateCartItemAmount` action handler (cart.service.js lines 288–332):
`itemId` defaults to `null`, `amount` defaults to 1; `none` models the
`undefined` return (empty or absent `items`, no write), `some c` the cart
written back with a refreshed `dateUpdated`. -/
def updateCartItemAmountHandler (cart : CartState) (itemId : Option String)
    (amount : Option ℚ) (now : ℕ) : Option CartState :=
  let amt := amount.getD 1
  match cart.items with
  | some its =>
    if 0 < its.length then
      some { cart with items := some (updateItemsAmount its itemId amt), dateUpdated := now }
    else none
  | none => none

/-- A dynamic JavaScript field value, as stored on the cart document. -/
inductive Value where
  | str (s : String)
  | num (q : ℚ)
  | arr (l : List CartItem)
  | date (n : ℕ)
deriving DecidableEq, Repr

/-- JavaScript truthiness of a field value: the empty string and 0 are falsy;
arrays and Date objects are always truthy. -/
def Value.truthy : Value → Bool
  | str s => s ≠ ""
  | num q => q ≠ 0
  | arr _ => true
  | date _ => true

/-- A cart document as a dynamic JavaScript object: a partial map from
property names to values (`none` = property absent). -/
def CartDoc : Type := String → Option Value

/-- The MongoDB update command built by `prepareForUpdate`
(`return { "$set": objectToSave }`). -/
structure UpdateCommand where
  set : CartDoc

/-- The payload fields of `prepareForUpdate` (cart.service.js lines 427–433):
a shallow copy of the object with `delete objectToSave._id` applied when
`_id` is defined (`typeof ... !== "undefined"`) and truthy. -/
def prepareForUpdateFields (object : CartDoc) : CartDoc :=
  fun k =>
    if k = "_id" then
      match object "_id" with
      | some v => if v.truthy then none else some v
      | none => none
    else object k

/-- `prepareForUpdate`: the payload wrapped in the `$set` update command
(`return { "$set": objectToSave }`). -/
def prepareForUpdate (object : CartDoc) : UpdateCommand :=
  ⟨prepareForUpdateFields object⟩

/-- The field-merge loop of `updateMyCart` (cart.service.js lines 357–366):
for every property of `cartNew`, when both the current cart and `cartNew` own
that property the cart's value is overwritten; afterwards
`cart.dateUpdated = new Date()` stamps the current time (creating the
property if absent). -/
def updateMyCartMerge (cart cartNew : CartDoc) (now : ℕ) : CartDoc :=
  fun k =>
    if k = "dateUpdated" then some (.date now)
    else
      match cartNew k, cart k with
      | some v, some _ => some v
      | _, _ => cart k

/-- One element of the result of the `cart.find` storage query as inspected by
the `me` action: either a flat cart record or (malformed) a nested collection
of records. Both are JS objects, hence truthy. -/
inductive FoundEntry where
  | flat (c : CartState)
  | nested (cs : List CartState)
deriving DecidableEq, Repr

/-- Outcome of the `me` action's found-branch: an existing cart bound to
`ctx.meta.cart` and returned, or the fall-through into `createEmptyCart`. -/
inductive MeResult where
  | existing (c : CartState)
  | created
deriving DecidableEq, Repr

/-- The shape dispatch of the `me` action (cart.service.js lines 129–139):
`found && found.constructor===Array && found[0] && found[0].constructor!==Array`
takes `found[0]` as the cart; any other shape (no result, empty result, or a
first element that is itself an array) falls into `createEmptyCart`. -/
def meFoundBranch : Option (List FoundEntry) → MeResult
  | some (FoundEntry.flat c :: _) => .existing c
  | _ => .created

/-- The message built for each removed cart in `cleanCarts`
(`"Removed carts: " + JSON.stringify(removed)`); the argument stands for the
stringified removal result. -/
def removedMsg (removed : String) : String := "Removed carts: " ++ removed

/-- `Promise.all` over an ordered list of settled promises: the list of all
values when every promise fulfills, otherwise a rejection carrying the
leftmost rejection's error (the deterministic rendering of "the first
rejection wins"). -/
def promiseAll : List (Except String α) → Except String (List α)
  | [] => .ok []
  | .error e :: _ => .error e
  | .ok a :: rest => (promiseAll rest).map (fun l => a :: l)

/-- The leftmost error among a list of settled results, if any. -/
def firstErr : List (Except String α) → Option String
  | [] => none
  | .error e :: _ => some e
  | .ok _ :: rest => firstErr rest

/-- The `cleanCarts` action (cart.service.js lines 385–411) after the stale
carts have been found: one `ctx.call("cart.remove", {id: cart._id})` promise
per stale cart, each mapped onto its "Removed carts: ..." string, joined with
`Promise.all` (no per-item error handler). `remove` models the
`cart.remove` call, returning the stringified removed record or an error. -/
def cleanCarts (found : List CartState) (remove : String → Except String String) :
    Except String (List String) :=
  promiseAll (found.map (fun cart => (remove cart._id).map removedMsg))

/-- Example line item: product "itemA", amount 2, no requirements. -/
def itemA : CartItem := ⟨"itemA", 2, []⟩

/-- Example line item: product "itemB", amount 5, no requirements. -/
def itemB : CartItem := ⟨"itemB", 5, []⟩

/-- Example configured line item: nonempty `requirements`. -/
def itemCfg : CartItem := ⟨"itemCfg", 5, [⟨"engraving", "JB"⟩]⟩

/-- Example cart holding `itemA` and `itemB`. -/
def cartTwo : CartState :=
  ⟨"cart1", "u1", "10.0.0.1", "hashhashhashhashhashhashhashhash", 0, some [itemA, itemB]⟩

/-- Example cart whose `items` sequence is empty. -/
def cartEmptyItems : CartState :=
  ⟨"cart2", "u1", "10.0.0.1", "hashhashhashhashhashhashhashhash", 0, some []⟩

/-- Example cart holding the configured item. -/
def cartCfg : CartState :=
  ⟨"cart3", "u1", "10.0.0.1", "hashhashhashhashhashhashhashhash", 0, some [itemCfg]⟩

/-- The cart written back by `updateCartItemAmount` on `cartTwo` with
`itemId = "itemA"`, `amount = 3`, at time 1. -/
def cartRes10 : CartState :=
  ⟨"cart1", "u1", "10.0.0.1", "hashhashhashhashhashhashhashhash", 1,
    some [⟨"itemA", 3, []⟩, itemB]⟩

/-- Removal stub for the sweep: fails on `cart1`, succeeds elsewhere. -/
def remMixed : String → Except String String :=
  fun id => if id = "cart1" then .error "boom" else .ok "okB"

/-- Removal stub for the sweep: always succeeds. -/
def remGood : String → Except String String := fun _ => .ok "rem"

/-- Example cart document (dynamic-object view) with `user`, `hash`, `ip`,
`items` and `dateUpdated` properties. -/
def cartDocW : CartDoc := fun k =>
  if k = "user" then some (.str "u1")
  else if k = "hash" then some (.str "h1")
  else if k = "ip" then some (.str "ip1")
  else if k = "items" then some (.arr [itemA])
  else if k = "dateUpdated" then some (.date 0)
  else none

/-- Example patch containing only `user`. -/
def patchDocW : CartDoc := fun k =>
  if k = "user" then some (.str "u2") else none

/-- Example document whose `_id` is the empty string (defined but falsy). -/
def docFalsyId : CartDoc := fun k =>
  if k = "_id" then some (.str "")
  else if k = "user" then some (.str "u1")
  else none

/-- Example document whose `_id` is a normal (truthy) storage id. -/
def docTruthyId : CartDoc := fun k =>
  if k = "_id" then some (.str "5f1")
  else if k = "user" then some (.str "u1")
  else none

end Cart

namespace Cart

universe u
variable {α : Type u}

theorem modifyAt_get?_self (l : List α) (i : ℕ) (f : α → α) :
    (modifyAt l i f).get? i = (l.get? i).map f := by
  induction l generalizing i with
  | nil => cases i <;> rfl
  | cons x xs ih =>
    cases i with
    | zero => rfl
    | succ n => simpa [modifyAt] using ih n

theorem modifyAt_get?_ne (l : List α) (i j : ℕ) (f : α → α) (h : j ≠ i) :
    (modifyAt l i f).get? j = l.get? j := by
  induction l generalizing i j with
  | nil => cases i <;> rfl
  | cons x xs ih =>
    cases i with
    | zero =>
      cases j with
      | zero => exact absurd rfl h
      | succ m => rfl
    | succ n =>
      cases j with
      | zero => rfl
      | succ m => simpa [modifyAt] using ih n m (fun hc => h (by rw [hc]))

theorem modifyAt_length (l : List α) (i : ℕ) (f : α → α) :
    (modifyAt l i f).length = l.length := by
  induction l generalizing i with
  | nil => cases i <;> rfl
  | cons x xs ih =>
    cases i with
    | zero => rfl
    | succ n => simpa [modifyAt] using ih n

theorem modifyAt_eraseIdx (l : List α) (i : ℕ) (f : α → α) :
    (modifyAt l i f).eraseIdx i = l.eraseIdx i := by
  induction l generalizing i with
  | nil => cases i <;> rfl
  | cons x xs ih =>
    cases i with
    | zero => rfl
    | succ n => simpa [modifyAt, List.eraseIdx] using ih n

theorem findItemIndex_get? (items : List CartItem) (itemId : String) (i : ℕ)
    (h : findItemIndex items itemId = some i) :
    ∃ it, items.get? i = some it ∧ it._id = itemId := by
  induction items generalizing i with
  | nil => exact absurd h (by simp [findItemIndex])
  | cons x xs ih =>
    by_cases hx : x._id = itemId
    · rw [findItemIndex, if_pos hx] at h
      cases h
      exact ⟨x, rfl, hx⟩
    · rw [findItemIndex, if_neg hx] at h
      cases hj : findItemIndex xs itemId with
      | none => rw [hj] at h; exact absurd h (by simp)
      | some j =>
        rw [hj] at h
        obtain ⟨it, hget, hid⟩ := ih j hj
        refine ⟨it, ?_, hid⟩
        have hij : j + 1 = i := by simpa using h
        rw [← hij]
        simpa using hget

theorem updateItemsAmount_length (items : List CartItem) (itemId : Option String)
    (amount : ℚ) (h : 0 < amount) :
    (updateItemsAmount items itemId amount).length = items.length := by
  cases itemId with
  | none => rfl
  | some iid =>
    cases hfind : findItemIndex items iid with
    | none => simp only [updateItemsAmount, hfind]
    | some i =>
      obtain ⟨it, hget, -⟩ := findItemIndex_get? items iid i hfind
      have hmod : (modifyAt items i fun x => { x with amount := amount }).get? i
          = some { it with amount := amount } := by
        rw [modifyAt_get?_self, hget]; rfl
      have hnot : ¬ amountAt (modifyAt items i fun x => { x with amount := amount }) i ≤ 0 := by
        unfold amountAt; rw [hmod]; exact not_le.mpr h
      simp only [updateItemsAmount, hfind, if_pos h, if_neg hnot]
      by_cases hreq :
          0 < (requirementsAt (modifyAt items i fun x => { x with amount := amount }) i).length
      · rw [if_pos hreq, modifyAt_length, modifyAt_length]
      · rw [if_neg hreq, modifyAt_length]

theorem cleanCarts_cons (c : CartState) (cs : List CartState)
    (remove : String → Except String String) :
    cleanCarts (c :: cs) remove =
      match remove c._id with
      | .error e => .error e
      | .ok v => (cleanCarts cs remove).map (fun l => removedMsg v :: l) := by
  cases h : remove c._id <;> simp [cleanCarts, promiseAll, h, Except.map]

end Cart

open Cart

/-- C3: when the requested amount exceeds the product's stock level, a
subscription-type or digital-subtype product is rejected with
InsufficientStock if its stock level is finite (`> -1`) and accepted with the
amount clamped to exactly 1 if the stock level is the unlimited sentinel `-1`;
any other (physical) product is rejected with InsufficientStock. -/
theorem add_stock_check (p : Product) (amount : ℚ)
    (hexceed : amount > p.stockAmount) :
    ((p.type = "subscription" ∨ p.subtype = "digital") →
      (p.stockAmount > -1 →
        addCheckStock p amount = .error insufficientStockMsg) ∧
      (p.stockAmount = -1 →
        addCheckStock p amount = .ok 1)) ∧
    ((p.type ≠ "subscription" ∧ p.subtype ≠ "digital") →
      addCheckStock p amount = .error insufficientStockMsg) := by
  unfold addCheckStock
  rw [if_pos hexceed]
  constructor
  · intro hdig
    rw [if_pos hdig]
    constructor
    · intro hfin
      rw [if_pos hfin]
    · intro hunl
      rw [if_neg (by rw [hunl]; exact lt_irrefl (-1 : ℚ))]
  · intro hphys
    rw [if_neg (by push_neg; exact hphys)]

/-- Witness for C3: a subscription product with unlimited stock (`-1`) and
requested amount 5 succeeds with amount clamped to 1, and a digital product
with finite stock 1 is rejected. -/
theorem add_stock_check_witness :
    addCheckStock ⟨"subscription", "", -1⟩ 5 = .ok 1 ∧
    addCheckStock ⟨"", "digital", 1⟩ 5 = .error insufficientStockMsg := by
  constructor
  · exact ((add_stock_check ⟨"subscription", "", -1⟩ 5 (by norm_num)).1
      (Or.inl rfl)).2 rfl
  · exact ((add_stock_check ⟨"", "digital", 1⟩ 5 (by norm_num)).1
      (Or.inr rfl)).1 (by norm_num)

/-- C5: delete-item on a line located by `itemId`: a supplied positive amount
is subtracted from the line's amount and every other line is unchanged, the
line is removed entirely when the result drops to ≤ 0 (in particular when the
amount equals the current amount), and with no amount supplied the line is
removed entirely regardless of its current amount. -/
theorem delete_item_found (items : List CartItem) (iid : String) (i : ℕ)
    (it : CartItem) (a : ℚ)
    (hfind : findItemIndex items iid = some i)
    (hget : items.get? i = some it) :
    ((0 < a → 0 < it.amount - a →
      (deleteItems items iid (some a)).get? i = some { it with amount := it.amount - a } ∧
      ∀ j, j ≠ i → (deleteItems items iid (some a)).get? j = items.get? j) ∧
    (0 < a → it.amount - a ≤ 0 → deleteItems items iid (some a) = items.eraseIdx i) ∧
    deleteItems items iid none = items.eraseIdx i) := by
  have hmod : (modifyAt items i fun x => { x with amount := x.amount - a }).get? i
      = some { it with amount := it.amount - a } := by
    rw [modifyAt_get?_self, hget]
    rfl
  have hA : amountAt (modifyAt items i fun x => { x with amount := x.amount - a }) i
      = it.amount - a := by
    unfold amountAt; rw [hmod]
  refine ⟨fun hpos hrem => ?_, fun hpos hrem => ?_, ?_⟩
  · have hnot : ¬ amountAt (modifyAt items i fun x => { x with amount := x.amount - a }) i ≤ 0 := by
      rw [hA]; exact not_le.mpr hrem
    constructor
    · simp only [deleteItems, hfind, if_pos hpos, if_neg hnot]
      exact hmod
    · intro j hj
      simp only [deleteItems, hfind, if_pos hpos, if_neg hnot]
      exact modifyAt_get?_ne items i j _ hj
  · have hle : amountAt (modifyAt items i fun x => { x with amount := x.amount - a }) i ≤ 0 := by
      rw [hA]; exact hrem
    simp only [deleteItems, hfind, if_pos hpos, if_pos hle]
    exact modifyAt_eraseIdx items i _
  · simp only [deleteItems, hfind]

/-- Witness for C5: deleting amount 2 from `itemA` (current amount 2) removes
the line; deleting amount 2 from `itemB` (current amount 5) leaves the line at
5 − 2; deleting `itemA` with no amount removes the line. -/
theorem delete_item_found_witness :
    deleteItems [itemA, itemB] "itemA" (some 2) = [itemA, itemB].eraseIdx 0 ∧
    (deleteItems [itemA, itemB] "itemB" (some 2)).get? 1
      = some { itemB with amount := itemB.amount - 2 } ∧
    deleteItems [itemA, itemB] "itemA" none = [itemA, itemB].eraseIdx 0 := by
  refine ⟨?_, ?_, ?_⟩
  · exact (delete_item_found [itemA, itemB] "itemA" 0 itemA 2 rfl rfl).2.1
      (by norm_num) (by norm_num [itemA])
  · exact ((delete_item_found [itemA, itemB] "itemB" 1 itemB 2 rfl rfl).1
      (by norm_num) (by norm_num [itemB])).1
  · exact (delete_item_found [itemA, itemB] "itemA" 0 itemA 2 rfl rfl).2.2

/-- C4: a set-item-amount call that locates a line carrying nonempty
`requirements` leaves that line's amount at exactly 1, for every validated
(positive) requested amount. -/
theorem updateCartItemAmount_requirements_pinned (items : List CartItem)
    (iid : String) (i : ℕ) (it : CartItem) (amount : ℚ)
    (hfind : findItemIndex items iid = some i)
    (hget : items.get? i = some it)
    (hreq : it.requirements ≠ [])
    (hamt : 0 < amount) :
    amountAt (updateItemsAmount items (some iid) amount) i = 1 := by
  have hmod : (modifyAt items i fun x => { x with amount := amount }).get? i
      = some { it with amount := amount } := by
    rw [modifyAt_get?_self, hget]
    rfl
  have hA : amountAt (modifyAt items i fun x => { x with amount := amount }) i = amount := by
    unfold amountAt; rw [hmod]
  have hnot : ¬ amountAt (modifyAt items i fun x => { x with amount := amount }) i ≤ 0 := by
    rw [hA]; exact not_le.mpr hamt
  have hRlen : 0 < (requirementsAt (modifyAt items i fun x => { x with amount := amount }) i).length := by
    unfold requirementsAt
    rw [hmod]
    exact List.length_pos.mpr hreq
  simp only [updateItemsAmount, hfind, if_pos hamt, if_neg hnot, if_pos hRlen]
  unfold amountAt
  rw [modifyAt_get?_self, hmod]
  rfl

/-- Witness for C4: setting amount 7 on the configured line (`requirements`
nonempty) leaves its amount at 1. -/
theorem updateCartItemAmount_requirements_pinned_witness :
    amountAt (updateItemsAmount [itemCfg] (some "itemCfg") 7) 0 = 1 :=
  updateCartItemAmount_requirements_pinned [itemCfg] "itemCfg" 0 itemCfg 7
    rfl rfl (by decide) (by norm_num)

/-- C10: under the action's validated precondition (the requested amount is
positive when supplied and defaults to 1 otherwise), the splice branch of
`updateCartItemAmount` is unreachable: whenever the handler writes a cart
back, its items sequence has the same length as before the call. -/
theorem updateCartItemAmount_never_removes (cart : CartState) (itemId : Option String)
    (amount : Option ℚ) (now : ℕ) (c2 : CartState)
    (hpos : 0 < amount.getD 1)
    (hrun : updateCartItemAmountHandler cart itemId amount now = some c2) :
    (c2.items.getD []).length = (cart.items.getD []).length := by
  cases hcs : cart.items with
  | none =>
    simp only [updateCartItemAmountHandler, hcs] at hrun
    exact absurd hrun (by simp)
  | some its =>
    simp only [updateCartItemAmountHandler, hcs] at hrun
    by_cases hlen : 0 < its.length
    · rw [if_pos hlen] at hrun
      have hc2 := (Option.some.inj hrun).symm
      rw [hc2]
      simpa using updateItemsAmount_length its itemId (amount.getD 1) hpos
    · rw [if_neg hlen] at hrun
      exact absurd hrun (by simp)

/-- Witness for C10: setting `itemA` to amount 3 on the two-line cart keeps a
two-line items sequence. -/
theorem updateCartItemAmount_never_removes_witness :
    (cartRes10.items.getD []).length = (cartTwo.items.getD []).length :=
  updateCartItemAmount_never_removes cartTwo (some "itemA") (some 3) 1 cartRes10
    (by norm_num) (by rfl)

/-- C7 counterexample: deleting with the unmatched `itemId = "zzz"` on
`cartTwo` (whose `dateUpdated` is 0) is not a pure no-op: the handler still
writes the cart back with `dateUpdated` refreshed to 1, so the resulting cart
differs from the input, even though the items are unchanged. -/
theorem delete_notfound_counterexample :
    deleteHandler cartTwo (some "zzz") none 1 ≠ some cartTwo ∧
    (deleteHandler cartTwo (some "zzz") none 1).isSome = true ∧
    (deleteHandler cartTwo (some "zzz") none 1).map CartState.items
      = some cartTwo.items := by
  refine ⟨?_, rfl, rfl⟩
  intro h
  have h2 : (1 : ℕ) = cartTwo.dateUpdated :=
    congrArg CartState.dateUpdated (Option.some.inj h)
  simp [cartTwo] at h2

/-- C7 amended: delete-item with an `itemId` matching no line leaves the items
sequence unchanged and raises no error, but it is not a pure no-op on the cart
state: `dateUpdated` is refreshed and the cart is written back. -/
theorem delete_notfound_amended (cart : CartState) (its : List CartItem)
    (iid : String) (amount : Option ℚ) (now : ℕ)
    (hits : cart.items = some its) (hlen : 0 < its.length)
    (hnf : findItemIndex its iid = none) :
    deleteHandler cart (some iid) amount now = some { cart with dateUpdated := now } := by
  have hdel : deleteItems its iid amount = its := by
    simp only [deleteItems, hnf]
  simp only [deleteHandler, hits, if_pos hlen, hdel]

/-- Witness for C7: the unmatched delete on `cartTwo` returns the cart with
only `dateUpdated` changed. -/
theorem delete_notfound_amended_witness :
    deleteHandler cartTwo (some "zzz") none 1 = some { cartTwo with dateUpdated := 1 } :=
  delete_notfound_amended cartTwo [itemA, itemB] "zzz" none 1 rfl (by norm_num) rfl

/-- C8: when the resolved cart's items sequence is empty or absent, both
delete-item and set-item-amount return `undefined` (modelled `none`): no
persistence write and no error. -/
theorem empty_cart_returns_undefined (cart : CartState) (itemId : Option String)
    (amount : Option ℚ) (now : ℕ)
    (h : cart.items = none ∨ cart.items = some []) :
    deleteHandler cart itemId amount now = none ∧
    updateCartItemAmountHandler cart itemId amount now = none := by
  rcases h with h | h <;>
    simp [deleteHandler, updateCartItemAmountHandler, h]

/-- Witness for C8: both operations on the cart with an empty items sequence
return `undefined`. -/
theorem empty_cart_returns_undefined_witness :
    deleteHandler cartEmptyItems (some "itemA") (some 1) 5 = none ∧
    updateCartItemAmountHandler cartEmptyItems (some "itemA") (some 1) 5 = none :=
  empty_cart_returns_undefined cartEmptyItems (some "itemA") (some 1) 5 (Or.inr rfl)

/-- C6: the `updateMyCart` reconciliation: every field owned by both the
current cart and the patch takes the patch's value, a field absent from the
patch keeps the cart's value, a field absent from the cart is not added, and
`dateUpdated` is refreshed to the current time. -/
theorem updateMyCart_merge_frame (cart cartNew : CartDoc) (now : ℕ) (k : String) :
    (k ≠ "dateUpdated" →
      ((cart k).isSome = true → (cartNew k).isSome = true →
        updateMyCartMerge cart cartNew now k = cartNew k) ∧
      (cartNew k = none → updateMyCartMerge cart cartNew now k = cart k) ∧
      (cart k = none → updateMyCartMerge cart cartNew now k = cart k)) ∧
    updateMyCartMerge cart cartNew now "dateUpdated" = some (Value.date now) := by
  constructor
  · intro hk
    refine ⟨?_, ?_, ?_⟩
    · intro hc hp
      unfold updateMyCartMerge
      rw [if_neg hk]
      cases hcp : cartNew k with
      | none => rw [hcp] at hp; exact absurd hp (by simp)
      | some v =>
        cases hcc : cart k with
        | none => rw [hcc] at hc; exact absurd hc (by simp)
        | some w => rfl
    · intro hp
      unfold updateMyCartMerge
      rw [if_neg hk, hp]
    · intro hc
      unfold updateMyCartMerge
      rw [if_neg hk, hc]
      cases cartNew k <;> rfl
  · unfold updateMyCartMerge
    rw [if_pos rfl]

/-- Witness for C6: reconciling the patch containing only `user` onto the
example cart document changes `user`, leaves `items`, `hash` and `ip`
unchanged, and refreshes `dateUpdated`. -/
theorem updateMyCart_merge_frame_witness :
    updateMyCartMerge cartDocW patchDocW 9 "user" = some (Value.str "u2") ∧
    updateMyCartMerge cartDocW patchDocW 9 "items" = cartDocW "items" ∧
    updateMyCartMerge cartDocW patchDocW 9 "hash" = cartDocW "hash" ∧
    updateMyCartMerge cartDocW patchDocW 9 "ip" = cartDocW "ip" ∧
    updateMyCartMerge cartDocW patchDocW 9 "dateUpdated" = some (Value.date 9) := by
  refine ⟨?_, ?_, ?_, ?_, (updateMyCart_merge_frame cartDocW patchDocW 9 "x").2⟩
  · have h := ((updateMyCart_merge_frame cartDocW patchDocW 9 "user").1 (by decide)).1 rfl rfl
    rw [h]
    rfl
  · exact ((updateMyCart_merge_frame cartDocW patchDocW 9 "items").1 (by decide)).2.1 rfl
  · exact ((updateMyCart_merge_frame cartDocW patchDocW 9 "hash").1 (by decide)).2.1 rfl
  · exact ((updateMyCart_merge_frame cartDocW patchDocW 9 "ip").1 (by decide)).2.1 rfl

/-- C9 counterexample: `prepareForUpdate` strips `_id` only when it is truthy:
on a document whose `_id` is the empty string (defined but falsy), the `$set`
payload still contains `_id`. -/
theorem prepareForUpdate_counterexample :
    (prepareForUpdate docFalsyId).set "_id" = some (Value.str "") ∧
    (prepareForUpdate docFalsyId).set "_id" ≠ none := by
  exact ⟨rfl, by decide⟩

/-- C9 amended: the `$set` payload keeps every field other than `_id`
unchanged; `_id` is stripped when it is present and truthy, but a present yet
falsy `_id` is kept, and an absent `_id` stays absent. -/
theorem prepareForUpdate_amended (object : CartDoc) (k : String) (v : Value) :
    (k ≠ "_id" → (prepareForUpdate object).set k = object k) ∧
    (object "_id" = some v → v.truthy = true →
      (prepareForUpdate object).set "_id" = none) ∧
    (object "_id" = some v → v.truthy = false →
      (prepareForUpdate object).set "_id" = some v) ∧
    (object "_id" = none → (prepareForUpdate object).set "_id" = none) := by
  refine ⟨?_, ?_, ?_, ?_⟩
  · intro hk
    show prepareForUpdateFields object k = object k
    unfold prepareForUpdateFields
    rw [if_neg hk]
  · intro hv ht
    show prepareForUpdateFields object "_id" = none
    unfold prepareForUpdateFields
    rw [if_pos rfl, hv]
    simp [ht]
  · intro hv ht
    show prepareForUpdateFields object "_id" = some v
    unfold prepareForUpdateFields
    rw [if_pos rfl, hv]
    simp [ht]
  · intro hv
    show prepareForUpdateFields object "_id" = none
    unfold prepareForUpdateFields
    rw [if_pos rfl, hv]

/-- Witness for C9 (amended): on a document with a truthy `_id`, the payload
strips `_id` and keeps `user` unchanged. -/
theorem prepareForUpdate_amended_witness :
    (prepareForUpdate docTruthyId).set "user" = docTruthyId "user" ∧
    (prepareForUpdate docTruthyId).set "_id" = none := by
  constructor
  · exact (prepareForUpdate_amended docTruthyId "user" (Value.str "5f1")).1 (by decide)
  · exact (prepareForUpdate_amended docTruthyId "_id" (Value.str "5f1")).2.1 rfl (by decide)

/-- C2 counterexample: a storage result whose first element is itself a
collection (nested) is not normalized to that cart: the `me` found-branch
treats it as no cart found and falls into creating a new empty cart. -/
theorem me_nested_counterexample :
    meFoundBranch (some [FoundEntry.nested [cartTwo]]) = MeResult.created ∧
    MeResult.created ≠ MeResult.existing cartTwo :=
  ⟨rfl, fun h => MeResult.noConfusion h⟩

/-- C2 amended: the `me` found-branch takes the first element only when it is
a flat record; a nested first element, an empty result, or no result falls
through to creating a new empty cart. -/
theorem me_found_shape (found : Option (List FoundEntry)) (c : CartState)
    (cs : List CartState) (rest : List FoundEntry) :
    (found = some (FoundEntry.flat c :: rest) → meFoundBranch found = .existing c) ∧
    (found = some (FoundEntry.nested cs :: rest) → meFoundBranch found = .created) ∧
    (found = none → meFoundBranch found = .created) ∧
    (found = some [] → meFoundBranch found = .created) := by
  refine ⟨?_, ?_, ?_, ?_⟩ <;> (intro h; subst h; rfl)

/-- Witness for C2 (amended): a flat first element is returned as the cart; a
nested first element yields a created cart. -/
theorem me_found_shape_witness :
    meFoundBranch (some [FoundEntry.flat cartTwo]) = MeResult.existing cartTwo ∧
    meFoundBranch (some [FoundEntry.nested [cartTwo]]) = MeResult.created := by
  constructor
  · exact (me_found_shape (some [FoundEntry.flat cartTwo]) cartTwo [] []).1 rfl
  · exact (me_found_shape (some [FoundEntry.nested [cartTwo]]) cartTwo [cartTwo] []).2.1 rfl

/-- C1 counterexample: with two stale carts where removing the first fails and
removing the second succeeds, `cleanCarts` rejects with the single error: the
batch result is not a list of per-cart outcomes, and the successful removal's
outcome is dropped. -/
theorem cleanCarts_counterexample :
    cleanCarts [cartTwo, cartEmptyItems] remMixed = .error "boom" ∧
    remMixed cartEmptyItems._id = .ok "okB" ∧
    (cleanCarts [cartTwo, cartEmptyItems] remMixed).isOk = false :=
  ⟨rfl, rfl, rfl⟩

/-- C1 amended: every per-cart removal call is issued, but the outcomes are
all reported only when every removal succeeds — then the result lists one
"Removed carts: ..." string per stale cart, in order; when any removal fails,
the `Promise.all` join rejects with the first failure's error and no outcome
list is produced. -/
theorem cleanCarts_outcomes (found : List CartState)
    (remove : String → Except String String) (g : String → String) (e : String) :
    ((∀ c ∈ found, remove c._id = .ok (g c._id)) →
      cleanCarts found remove = .ok (found.map fun c => removedMsg (g c._id))) ∧
    (firstErr (found.map fun c => remove c._id) = some e →
      cleanCarts found remove = .error e) := by
  constructor
  · induction found with
    | nil => intro hok; rfl
    | cons c cs ih =>
      intro hok
      have hc := hok c (List.mem_cons_self c cs)
      have ihe := ih (fun x hx => hok x (List.mem_cons_of_mem c hx))
      simp only [cleanCarts, Except.map] at ihe
      simp [cleanCarts, promiseAll, hc, Except.map, ihe]
  · induction found with
    | nil =>
      intro herr
      exact absurd herr (by simp [firstErr])
    | cons c cs ih =>
      intro herr
      cases hr : remove c._id with
      | error e2 =>
        rw [List.map_cons, hr] at herr
        have he : e2 = e := by simpa [firstErr] using herr
        simp [cleanCarts, promiseAll, hr, Except.map, he]
      | ok v =>
        rw [List.map_cons, hr] at herr
        have herr2 : firstErr (List.map (fun x => remove x._id) cs) = some e := by
          simpa [firstErr] using herr
        have ihe := ih herr2
        simp only [cleanCarts, Except.map] at ihe
        simp [cleanCarts, promiseAll, hr, Except.map, ihe]

/-- Witness for C1 (amended): with both removals succeeding, the sweep lists
one outcome per stale cart. -/
theorem cleanCarts_outcomes_witness :
    cleanCarts [cartTwo, cartEmptyItems] remGood
      = .ok ["Removed carts: rem", "Removed carts: rem"] := by
  have h := (cleanCarts_outcomes [cartTwo, cartEmptyItems] remGood
    (fun _ => "rem") "e").1 (fun c _ => rfl)
  rw [h]
  rfl
